import Mathlib

/-!
Shallow embedding of the `mysql` access-layer library (src/src/lib.rs).

The library is a single file: a `lazy_static` global `POOL : Arc<Mutex<Pool>>`
whose initializer reads `DATABASE_URL`, parses it as a URL and builds a pool,
plus two async wrappers `select` and `execute` that lock the mutex only to
call `get_conn`, run the query on the leased connection, and map or discard
result rows.

Modelling choices, stated once here:

* External collaborators (the `url` crate, the `mysql_async` driver and the
  environment) are abstracted as record fields (`Env.parseUrl`,
  `DbEnv.getConn`, `DbEnv.runQuery`) so that theorems quantify over all of
  their possible behaviours.
* A Rust panic (an `expect` in the initializer, or `FromRow::from_row`
  failing inside `exec_map`) aborts the call without returning a value to the
  caller; it is modelled as an explicit `Except.error`
  (initializer) or `Outcome.panicked` (query path) outcome, distinct from an
  `Err` returned to the caller.
* Connection leases are counted by `PoolState.inUse`; a `Conn` drop (normal
  scope exit, `?` early return, or unwinding) returns the lease, so every
  exit path decrements the count.
* The `tokio::sync::Mutex` around the pool handle is modelled by an event
  trace: in `let mut conn = pool.lock().await.get_conn().await?;` the guard
  temporary lives to the end of the statement, so the trace is
  lock-acquire, conn-acquire, lock-release, and only then the query runs.
-/

namespace Mysql

/-- Column values as they appear in a driver result row. -/
inductive Value
  | vint (n : Int)
  | vstr (s : String)
  | vnull
deriving DecidableEq, Repr

/-- A driver result row: ordered column values (`mysql_async::Row`). -/
abbrev Row := List Value

/-- Query parameters (`mysql_async::Params`): the code passes either the
caller-supplied value or `()`, which converts to `Params::Empty`. -/
inductive Params
  | empty
  | named (pairs : List (String × Value))
  | positional (vals : List Value)
deriving DecidableEq, Repr

/-- A caller-supplied target record type `T`: the external `FromRow` contract
is the fallible converter `from_row_opt`; `FromRow::from_row` is its
unwrapping (panicking) variant, used by the library inside `exec_map`. -/
structure RowType (α : Type) where
  fromRowOpt : Row → Option α

/-- Message of the panic raised by `FromRow::from_row` on a shape mismatch. -/
def fromRowPanicMsg : String := "from_row conversion failed"

/-- The row-conversion pass of `conn.exec_map(query, params, |row| T::from_row(row))`:
rows are converted in result order; the first row that does not fit `T`
raises a panic (modelled as `Except.error`), so no partial list survives. -/
def execMap {α : Type} (rt : RowType α) : List Row → Except String (List α)
  | [] => .ok []
  | r :: rs =>
    match rt.fromRowOpt r with
    | none => .error fromRowPanicMsg
    | some a =>
      match execMap rt rs with
      | .ok l => .ok (a :: l)
      | .error m => .error m

/-- The spec error taxonomy for the query path (spec section 7). The code
returns `Box<dyn Error>`; its two producers are the `get_conn` failure
(`connectionFailed`) and the driver rejecting the statement (`queryFailed`).
`mappingFailed` is the taxonomy entry the spec assigns to row-shape
mismatches; the theorems below settle whether the code ever produces it. -/
inductive DbError
  | connectionFailed (msg : String)
  | queryFailed (msg : String)
  | mappingFailed
deriving DecidableEq, Repr

/-- Outcome of one `select`/`execute` call: a value returned to the caller,
an `Err` returned to the caller, or a panic that aborts the task. -/
inductive Outcome (α : Type)
  | ok (val : α)
  | err (e : DbError)
  | panicked (msg : String)
deriving DecidableEq, Repr

/-- Pool bookkeeping: the number of connection leases currently held.
The available-connection count is the pool size minus `inUse`, so it
returns to its pre-call value exactly when `inUse` does. -/
structure PoolState where
  inUse : Nat
deriving DecidableEq, Repr

/-- Events emitted along one call, in order: the mutex on the shared pool
handle, the connection lease, and the query round trip. -/
inductive Event
  | lockAcquire
  | lockRelease
  | connAcquire
  | connRelease
  | queryRun
deriving DecidableEq, Repr

/-- The driver and network, abstracted: whether `get_conn` yields a
connection, and what the database answers to a statement. -/
structure DbEnv where
  getConn : Except String Unit
  runQuery : String → Params → Except String (List Row)

/-- Trace of a call whose `get_conn` fails: the guard temporary is dropped
while the `?` early-returns, so the lock is released before the error
propagates; no connection lease was taken. -/
def acquireFailTrace : List Event := [.lockAcquire, .lockRelease]

/-- Trace of a call that acquired a connection: the lock is released at the
end of the `let mut conn = ...` statement, before the query runs; the lease
is returned when `conn` is dropped on every exit path. -/
def leasedTrace : List Event :=
  [.lockAcquire, .connAcquire, .lockRelease, .queryRun, .connRelease]

/-- Embedding of `pub async fn select<T: FromRow + Send>(query, params_map)`.
The call clones the global handle, locks it, calls `get_conn` (the `?`
propagates its failure), then matches on `params_map` and runs
`exec_map` with either the caller parameters or `()`; each returned row is
converted by `T::from_row`, which panics on a mismatch. The pool state and
the event trace are threaded explicitly. -/
def select {α : Type} (rt : RowType α) (env : DbEnv) (query : String)
    (params_map : Option Params) (st : PoolState) :
    Outcome (List α) × PoolState × List Event :=
  match env.getConn with
  | .error e => (.err (.connectionFailed e), st, acquireFailTrace)
  | .ok _ =>
    match params_map with
    | some p =>
      match env.runQuery query p with
      | .ok rows =>
        match execMap rt rows with
        | .ok result => (.ok result, ⟨st.inUse + 1 - 1⟩, leasedTrace)
        | .error m => (.panicked m, ⟨st.inUse + 1 - 1⟩, leasedTrace)
      | .error e => (.err (.queryFailed e), ⟨st.inUse + 1 - 1⟩, leasedTrace)
    | none =>
      match env.runQuery query Params.empty with
      | .ok rows =>
        match execMap rt rows with
        | .ok result => (.ok result, ⟨st.inUse + 1 - 1⟩, leasedTrace)
        | .error m => (.panicked m, ⟨st.inUse + 1 - 1⟩, leasedTrace)
      | .error e => (.err (.queryFailed e), ⟨st.inUse + 1 - 1⟩, leasedTrace)

/-- Embedding of `pub async fn execute(query, params_map)`: same acquisition
as `select`, then `exec_drop`, which discards any returned rows and yields
`Ok(())` when the database accepts the statement. -/
def execute (env : DbEnv) (query : String) (params_map : Option Params)
    (st : PoolState) : Outcome Unit × PoolState × List Event :=
  match env.getConn with
  | .error e => (.err (.connectionFailed e), st, acquireFailTrace)
  | .ok _ =>
    match params_map with
    | some p =>
      match env.runQuery query p with
      | .ok _rows => (.ok (), ⟨st.inUse + 1 - 1⟩, leasedTrace)
      | .error e => (.err (.queryFailed e), ⟨st.inUse + 1 - 1⟩, leasedTrace)
    | none =>
      match env.runQuery query Params.empty with
      | .ok _rows => (.ok (), ⟨st.inUse + 1 - 1⟩, leasedTrace)
      | .error e => (.err (.queryFailed e), ⟨st.inUse + 1 - 1⟩, leasedTrace)

/-- The effective parameters a call hands to the driver: the caller map, or
`Params::Empty` for the `()` of the `None` branch. -/
def paramsOf : Option Params → Params
  | some p => p
  | none => .empty

/-! ### The lazy global pool -/

/-- Result of `url::Url::parse`, abstracted: the accessors the initializer
uses. `username()` yields `""` when absent; `password()` and `host_str()`
yield options. -/
structure UrlParts where
  username : String
  password : Option String
  host : Option String
  path : String

/-- The process environment and the `url` crate, abstracted: the value of
`DATABASE_URL` (after `dotenv().ok()`), and the URL parse function. -/
structure Env where
  databaseUrl : Option String
  parseUrl : String → Option UrlParts

/-- The connection parameters fed to `OptsBuilder`. -/
structure ConnectionConfig where
  user : String
  password : String
  host : String
  database : String
deriving DecidableEq, Repr

/-- The distinct fatal failures of the `POOL` initializer, one per `expect`:
`missingEnv` is `expect("DATABASE_URL must be set")`, `malformed` is
`expect("Failed to parse DATABASE_URL")`, `missingHost` is
`expect("DATABASE_URL must have a host")`. Each aborts the process
(a panic during lazy initialization); none is returned to a caller. -/
inductive InitError
  | missingEnv
  | malformed
  | missingHost
deriving DecidableEq, Repr

/-- Embedding of Rust `s.trim_start_matches('/')`: remove every leading
occurrence of the character. -/
def trimStartMatches (s : String) (c : Char) : String :=
  ⟨s.data.dropWhile (fun x => x == c)⟩

/-- Body of the `lazy_static!` initializer up to `OptsBuilder`: read
`DATABASE_URL`, parse it, extract user, password (defaulting to `""`),
host (required) and the database name (`path().trim_start_matches('/')`). -/
def initConfig (env : Env) : Except InitError ConnectionConfig :=
  match env.databaseUrl with
  | none => .error .missingEnv
  | some s =>
    match env.parseUrl s with
    | none => .error .malformed
    | some u =>
      match u.host with
      | none => .error .missingHost
      | some h =>
        .ok { user := u.username
              password := u.password.getD ""
              host := h
              database := trimStartMatches u.path '/' }

/-- A constructed pool, carrying an identity token so that "same instance"
is expressible. -/
structure Pool where
  id : Nat
deriving DecidableEq, Repr

/-- The state of the `lazy_static` cell: the stored pool, if initialization
has run, and how many pool constructions have ever happened. -/
structure LazyState where
  cell : Option Pool
  constructions : Nat
deriving DecidableEq, Repr

/-- The cell before any access. -/
def initialLazy : LazyState := { cell := none, constructions := 0 }

/-- One access to `POOL` (the `POOL.clone()` at the top of `select` and
`execute`): `lazy_static` runs the initializer on the first access only —
its internal `Once` serializes racing first accesses, so concurrent first
use reduces to this sequential step — and every later access returns the
stored instance. A failing initializer (an `expect` panic, modelled as
`Except.error`) stores nothing. -/
def forcePool (env : Env) (st : LazyState) : Except InitError Pool × LazyState :=
  match st.cell with
  | some p => (.ok p, st)
  | none =>
    match initConfig env with
    | .error e => (.error e, st)
    | .ok _cfg =>
      let p : Pool := { id := st.constructions }
      (.ok p, { cell := some p, constructions := st.constructions + 1 })

/-- A sequence of `n` accesses to `POOL` by callers of `select`/`execute`,
returning what each caller observed and the final cell state. -/
def accessSeq (env : Env) : Nat → LazyState → List (Except InitError Pool) × LazyState
  | 0, st => ([], st)
  | n + 1, st =>
    let step := forcePool env st
    let rest := accessSeq env n step.2
    (step.1 :: rest.1, rest.2)

/-! ### Lock-discipline checker -/

/-- Walk an event trace with the current mutex depth, checking the gate
discipline of spec section 4.3: the query round trip happens with the pool
handle unlocked (depth `0`), and the connection acquisition happens under
the lock (depth `1`). -/
def gateOk : Nat → List Event → Bool
  | _, [] => true
  | d, .lockAcquire :: es => gateOk (d + 1) es
  | d, .lockRelease :: es => gateOk (d - 1) es
  | d, .queryRun :: es => d == 0 && gateOk d es
  | d, .connAcquire :: es => d == 1 && gateOk d es
  | d, .connRelease :: es => gateOk d es

/-! ### Concrete environments used in counterexamples and witnesses -/

/-- Concrete environment whose `DATABASE_URL` parses cleanly. -/
def envOk : Env :=
  { databaseUrl := some "mysql://u:pw@h/db"
    parseUrl := fun _ =>
      some { username := "u", password := some "pw"
             host := some "h", path := "/db" } }

/-- Environment with no `DATABASE_URL` set. -/
def envNoUrl : Env := { databaseUrl := none, parseUrl := fun _ => none }

/-- Environment whose `DATABASE_URL` value is present but unparseable. -/
def envBadUrl : Env := { databaseUrl := some "not a url", parseUrl := fun _ => none }

/-- Environment whose URL path has leading and embedded slashes. -/
def envDeepPath : Env :=
  { databaseUrl := some "mysql://u@h//a/b"
    parseUrl := fun _ =>
      some { username := "u", password := none
             host := some "h", path := "//a/b" } }

/-- A caller target of two fields: an integer and a string column. -/
def pairRT : RowType (Int × String) :=
  ⟨fun r =>
    match r with
    | [Value.vint n, Value.vstr s] => some (n, s)
    | _ => none⟩

/-- Environment returning one mismatched row. -/
def mismatchEnv : DbEnv :=
  { getConn := .ok ()
    runQuery := fun _ _ => .ok [[Value.vint 1]] }

/-- Environment whose driver rejects every statement. -/
def rejectEnv : DbEnv :=
  { getConn := .ok ()
    runQuery := fun _ _ => .error "syntax error" }

/-- Environment that accepts every statement and returns one row. -/
def acceptEnv : DbEnv :=
  { getConn := .ok ()
    runQuery := fun _ _ => .ok [[Value.vint 1]] }

/-! ### Helper lemmas -/

/-- Once the lazy cell is filled, every further access returns the stored
pool and leaves the state unchanged. -/
theorem accessSeq_filled (env : Env) :
    ∀ (n : Nat) (st : LazyState) (p : Pool), st.cell = some p →
      accessSeq env n st = (List.replicate n (Except.ok p), st)
  | 0, _, _, _ => by simp [accessSeq]
  | n + 1, st, p, h => by
    simp [accessSeq, forcePool, h, accessSeq_filled env n st p h,
      List.replicate_succ]

/-- The head of a `dropWhile` residue does not satisfy the predicate. -/
theorem dropWhile_head_false (p : Char → Bool) :
    ∀ (l : List Char) (c : Char) (cs : List Char),
      l.dropWhile p = c :: cs → p c = false
  | [], c, cs, h => by simp [List.dropWhile] at h
  | x :: xs, c, cs, h => by
    by_cases hx : p x
    · exact dropWhile_head_false p xs c cs (by simpa [List.dropWhile, hx] using h)
    · rw [List.dropWhile_cons_of_neg hx] at h
      obtain ⟨rfl, -⟩ := List.cons.inj h
      exact Bool.of_not_eq_true hx

/-- Every character list splits as leading slashes followed by its
slash-`dropWhile` residue. -/
theorem dropWhile_slash_decomp :
    ∀ l : List Char,
      ∃ k, l = List.replicate k '/' ++ l.dropWhile (fun x => x == '/')
  | [] => ⟨0, rfl⟩
  | c :: cs => by
    obtain ⟨k, hk⟩ := dropWhile_slash_decomp cs
    by_cases hc : (c == '/') = true
    · refine ⟨k + 1, ?_⟩
      rw [List.dropWhile_cons, if_pos hc, List.replicate_succ,
        List.cons_append, ← hk, eq_of_beq hc]
    · refine ⟨0, ?_⟩
      rw [List.dropWhile_cons, if_neg hc, List.replicate, List.nil_append]

/-- When `get_conn` fails, both branches of `select` collapse to the same
error return with the state untouched. -/
theorem select_connFail {α : Type} (rt : RowType α) (env : DbEnv) (q : String)
    (pm : Option Params) (st : PoolState) (e : String)
    (hc : env.getConn = .error e) :
    select rt env q pm st = (.err (.connectionFailed e), st, acquireFailTrace) := by
  cases pm <;> simp [select, hc]

/-- When `get_conn` succeeds but the driver rejects the statement, `select`
returns the query failure with the lease released. -/
theorem select_queryFail {α : Type} (rt : RowType α) (env : DbEnv) (q : String)
    (pm : Option Params) (st : PoolState) (e : String)
    (hc : env.getConn = .ok ()) (hq : env.runQuery q (paramsOf pm) = .error e) :
    select rt env q pm st = (.err (.queryFailed e), ⟨st.inUse⟩, leasedTrace) := by
  cases pm <;> simp only [paramsOf] at hq <;> simp [select, hc, hq]

/-- When `get_conn` succeeds, the driver returns rows and every row converts,
`select` returns the converted list with the lease released. -/
theorem select_mapOk {α : Type} (rt : RowType α) (env : DbEnv) (q : String)
    (pm : Option Params) (st : PoolState) (rows : List Row) (l : List α)
    (hc : env.getConn = .ok ()) (hq : env.runQuery q (paramsOf pm) = .ok rows)
    (hm : execMap rt rows = .ok l) :
    select rt env q pm st = (.ok l, ⟨st.inUse⟩, leasedTrace) := by
  cases pm <;> simp only [paramsOf] at hq <;> simp [select, hc, hq, hm]

/-- When `get_conn` succeeds, the driver returns rows and some row fails the
conversion, `select` panics with the lease released by unwinding. -/
theorem select_mapPanic {α : Type} (rt : RowType α) (env : DbEnv) (q : String)
    (pm : Option Params) (st : PoolState) (rows : List Row) (m : String)
    (hc : env.getConn = .ok ()) (hq : env.runQuery q (paramsOf pm) = .ok rows)
    (hm : execMap rt rows = .error m) :
    select rt env q pm st = (.panicked m, ⟨st.inUse⟩, leasedTrace) := by
  cases pm <;> simp only [paramsOf] at hq <;> simp [select, hc, hq, hm]

/-- When `get_conn` fails, `execute` returns the same error with the state
untouched. -/
theorem execute_connFail (env : DbEnv) (q : String) (pm : Option Params)
    (st : PoolState) (e : String) (hc : env.getConn = .error e) :
    execute env q pm st = (.err (.connectionFailed e), st, acquireFailTrace) := by
  cases pm <;> simp [execute, hc]

/-- When `get_conn` succeeds but the driver rejects the statement, `execute`
returns the query failure with the lease released. -/
theorem execute_queryFail (env : DbEnv) (q : String) (pm : Option Params)
    (st : PoolState) (e : String)
    (hc : env.getConn = .ok ()) (hq : env.runQuery q (paramsOf pm) = .error e) :
    execute env q pm st = (.err (.queryFailed e), ⟨st.inUse⟩, leasedTrace) := by
  cases pm <;> simp only [paramsOf] at hq <;> simp [execute, hc, hq]

/-- When `get_conn` succeeds and the database accepts the statement,
`execute` returns unit, whatever rows came back. -/
theorem execute_queryOk (env : DbEnv) (q : String) (pm : Option Params)
    (st : PoolState) (rows : List Row)
    (hc : env.getConn = .ok ()) (hq : env.runQuery q (paramsOf pm) = .ok rows) :
    execute env q pm st = (.ok (), ⟨st.inUse⟩, leasedTrace) := by
  cases pm <;> simp only [paramsOf] at hq <;> simp [execute, hc, hq]

/-- A successful `execMap` pass converts row `i` to record `i`, preserving
order and length. -/
theorem execMap_ok_spec {α : Type} (rt : RowType α) :
    ∀ (rows : List Row) (recs : List α), execMap rt rows = .ok recs →
      recs.length = rows.length ∧
      ∀ i : Nat, recs.get? i = (rows.get? i).bind rt.fromRowOpt
  | [], recs, h => by
    obtain rfl : recs = [] := by simpa [execMap] using h.symm
    exact ⟨rfl, fun i => by simp⟩
  | r :: rs, recs, h => by
    rw [execMap] at h
    rcases hr : rt.fromRowOpt r with - | a <;> rw [hr] at h
    · simp at h
    rcases hm : execMap rt rs with m | l <;> rw [hm] at h
    · simp at h
    obtain rfl : a :: l = recs := Except.ok.inj h
    obtain ⟨hlen, hget⟩ := execMap_ok_spec rt rs l hm
    refine ⟨by simp [hlen], fun i => ?_⟩
    cases i with
    | zero => simp [hr]
    | succ j => simpa using hget j

/-- The only list `execMap` maps to the empty result is the empty row list. -/
theorem execMap_ok_nil {α : Type} (rt : RowType α) :
    ∀ rows : List Row, execMap rt rows = .ok ([] : List α) → rows = [] := by
  intro rows h
  rcases rows with - | ⟨r, rs⟩
  · rfl
  · have hl := (execMap_ok_spec rt (r :: rs) [] h).1
    simp at hl

/-- If any returned row fails the `FromRow` conversion, the conversion pass
raises the `from_row` panic. -/
theorem execMap_panics_of_bad {α : Type} (rt : RowType α) :
    ∀ rows : List Row, (∃ r ∈ rows, rt.fromRowOpt r = none) →
      execMap rt rows = .error fromRowPanicMsg
  | [], h => by simp at h
  | r :: rs, h => by
    rw [execMap]
    rcases hr : rt.fromRowOpt r with - | a
    · rfl
    · obtain ⟨x, hx, hxn⟩ := h
      rcases List.mem_cons.1 hx with rfl | hx2
      · exact absurd hr (by simp [hxn])
      · rw [execMap_panics_of_bad rt rs ⟨x, hx2, hxn⟩]

/-- The trace of any `select` or `execute` call is one of the two concrete
shapes: acquisition failure, or a full leased round trip. -/
theorem trace_shapes {α : Type} (rt : RowType α) (env : DbEnv) (q : String)
    (pm : Option Params) (st : PoolState) :
    ((select rt env q pm st).2.2 = acquireFailTrace ∨
      (select rt env q pm st).2.2 = leasedTrace) ∧
    ((execute env q pm st).2.2 = acquireFailTrace ∨
      (execute env q pm st).2.2 = leasedTrace) := by
  constructor
  · rcases hc : env.getConn with e | u
    · rw [select_connFail rt env q pm st e hc]; exact Or.inl rfl
    · rcases hq : env.runQuery q (paramsOf pm) with e | rows
      · rw [select_queryFail rt env q pm st e hc hq]; exact Or.inr rfl
      · rcases hm : execMap rt rows with m | l
        · rw [select_mapPanic rt env q pm st rows m hc hq hm]; exact Or.inr rfl
        · rw [select_mapOk rt env q pm st rows l hc hq hm]; exact Or.inr rfl
  · rcases hc : env.getConn with e | u
    · rw [execute_connFail env q pm st e hc]; exact Or.inl rfl
    · rcases hq : env.runQuery q (paramsOf pm) with e | rows
      · rw [execute_queryFail env q pm st e hc hq]; exact Or.inr rfl
      · rw [execute_queryOk env q pm st rows hc hq]; exact Or.inr rfl

/-! ### Claims about the lazy pool initializer -/

/-- C1: at most one Pool instance is ever constructed per process; the first
access runs the construction exactly once and every later access (by any
caller of `select` or `execute`, whose racing first uses are serialized by
the one-time-init primitive) observes that same instance. -/
theorem pool_constructed_once (env : Env) (cfg : ConnectionConfig)
    (hcfg : initConfig env = .ok cfg) (n : Nat) (hn : 1 ≤ n) :
    (accessSeq env n initialLazy).2.constructions = 1 ∧
    ∃ p : Pool, (accessSeq env n initialLazy).2.cell = some p ∧
      (accessSeq env n initialLazy).1 = List.replicate n (Except.ok p) := by
  obtain ⟨m, rfl⟩ : ∃ m, n = m + 1 := ⟨n - 1, by omega⟩
  have h1 : forcePool env initialLazy =
      (.ok ⟨0⟩, { cell := some ⟨0⟩, constructions := 1 }) := by
    simp [forcePool, initialLazy, hcfg]
  have h2 := accessSeq_filled env m
    { cell := some ⟨0⟩, constructions := 1 } ⟨0⟩ rfl
  refine ⟨?_, ⟨0⟩, ?_, ?_⟩ <;>
    simp [accessSeq, h1, h2, List.replicate_succ]

/-- Witness for C1 at two accesses of a well-configured environment. -/
theorem pool_constructed_once_wit :
    (accessSeq envOk 2 initialLazy).2.constructions = 1 ∧
    ∃ p : Pool, (accessSeq envOk 2 initialLazy).2.cell = some p ∧
      (accessSeq envOk 2 initialLazy).1 = List.replicate 2 (Except.ok p) :=
  pool_constructed_once envOk
    { user := "u", password := "pw", host := "h"
      database := trimStartMatches "/db" '/' }
    rfl 2 (by omega)

/-- C8: when `DATABASE_URL` is absent at first use, initialization fails
fatally (the `expect` panic, modelled as the `missingEnv` error of the
forced cell) and no pool is constructed: the cell stays empty and the
construction count stays zero, so nothing is handed to any caller. -/
theorem missing_env_fatal (env : Env) (h : env.databaseUrl = none) :
    (forcePool env initialLazy).1 = Except.error InitError.missingEnv ∧
    (forcePool env initialLazy).2.cell = none ∧
    (forcePool env initialLazy).2.constructions = 0 := by
  simp [forcePool, initialLazy, initConfig, h]

/-- Witness for C8 at the environment with no `DATABASE_URL`. -/
theorem missing_env_fatal_wit :
    (forcePool envNoUrl initialLazy).1 = Except.error InitError.missingEnv ∧
    (forcePool envNoUrl initialLazy).2.cell = none ∧
    (forcePool envNoUrl initialLazy).2.constructions = 0 :=
  missing_env_fatal envNoUrl rfl

/-- C9: an unparseable connection string fails as `malformed`, a parsed URL
without a host segment fails as `missingHost`, and otherwise initialization
succeeds for every username/password shape, the password defaulting to the
empty string when absent. -/
theorem connection_string_classification (env : Env) (s : String)
    (hs : env.databaseUrl = some s) :
    (env.parseUrl s = none → initConfig env = .error InitError.malformed) ∧
    (∀ u : UrlParts, env.parseUrl s = some u → u.host = none →
      initConfig env = .error InitError.missingHost) ∧
    (∀ (u : UrlParts) (h : String), env.parseUrl s = some u → u.host = some h →
      initConfig env = .ok
        { user := u.username, password := u.password.getD ""
          host := h, database := trimStartMatches u.path '/' }) ∧
    (∀ (u : UrlParts) (h : String), env.parseUrl s = some u → u.host = some h →
      u.password = none →
      ∃ cfg, initConfig env = .ok cfg ∧ cfg.password = "") := by
  refine ⟨fun hp => ?_, fun u hp hh => ?_, fun u h hp hh => ?_,
    fun u h hp hh hpw => ?_⟩
  · simp [initConfig, hs, hp]
  · simp [initConfig, hs, hp, hh]
  · simp [initConfig, hs, hp, hh]
  · refine ⟨{ user := u.username, password := u.password.getD ""
              host := h, database := trimStartMatches u.path '/' }, ?_, ?_⟩
    · simp [initConfig, hs, hp, hh]
    · simp [hpw]

/-- Witness for C9: the unparseable string is classified as `malformed`. -/
theorem connection_string_classification_wit :
    initConfig envBadUrl = .error InitError.malformed :=
  (connection_string_classification envBadUrl "not a url" rfl).1 rfl

/-- C10: the configured database name is the URL path with every leading
slash removed: it is empty whenever the path is empty or all slashes, and
the rest of the path (embedded slashes included) is kept verbatim, the
name never starting with a slash. -/
theorem database_name_strips_leading_slashes (env : Env)
    (cfg : ConnectionConfig) (hc : initConfig env = .ok cfg) :
    ∃ (s : String) (u : UrlParts),
      env.databaseUrl = some s ∧ env.parseUrl s = some u ∧
      cfg.database = trimStartMatches u.path '/' ∧
      (u.path.data.all (fun c => c == '/') = true → cfg.database = "") ∧
      (∃ k, u.path.data = List.replicate k '/' ++ cfg.database.data) ∧
      (∀ c cs, cfg.database.data = c :: cs → c ≠ '/') := by
  simp only [initConfig] at hc
  split at hc
  · simp at hc
  next s hs1 =>
  split at hc
  · simp at hc
  next u hp =>
  split at hc
  · simp at hc
  next h hh =>
  obtain rfl : _ = cfg := Except.ok.inj hc
  refine ⟨s, u, hs1, hp, rfl, fun hall => ?_, ?_, fun c cs hcc => ?_⟩
  · have hnil : u.path.data.dropWhile (fun x => x == '/') = [] :=
      List.dropWhile_eq_nil_iff.2 (fun x hx => by
        simpa using List.all_eq_true.1 hall x hx)
    simp only [trimStartMatches, hnil]
  · exact dropWhile_slash_decomp u.path.data
  · have hpc := dropWhile_head_false (fun x => x == '/') u.path.data c cs hcc
    simpa using hpc

/-- Witness for C10: path `//a/b` yields database name `a/b`. -/
theorem database_name_strips_leading_slashes_wit :
    ∃ (s : String) (u : UrlParts),
      envDeepPath.databaseUrl = some s ∧ envDeepPath.parseUrl s = some u ∧
      ({ user := "u", password := "", host := "h"
         database := trimStartMatches "//a/b" '/' } : ConnectionConfig).database =
        trimStartMatches u.path '/' ∧
      (u.path.data.all (fun c => c == '/') = true →
        ({ user := "u", password := "", host := "h"
           database := trimStartMatches "//a/b" '/' } : ConnectionConfig).database = "") ∧
      (∃ k, u.path.data = List.replicate k '/' ++
        ({ user := "u", password := "", host := "h"
           database := trimStartMatches "//a/b" '/' } : ConnectionConfig).database.data) ∧
      (∀ c cs,
        ({ user := "u", password := "", host := "h"
           database := trimStartMatches "//a/b" '/' } : ConnectionConfig).database.data =
          c :: cs → c ≠ '/') :=
  database_name_strips_leading_slashes envDeepPath _ rfl

/-! ### Claims about `select` and `execute` -/

/-- C2 counterexample: a target type of two fields against a one-column row.
The driver hands back the row, the row fails the `FromRow` conversion, yet
the call does not return `Err(DbError::MappingFailed)` — it panics inside
`exec_map`, because the code calls the unwrapping `FromRow::from_row`
rather than the fallible `from_row_opt`. -/
theorem select_mappingFailed_cex :
    (∃ r ∈ [[Value.vint 1]], pairRT.fromRowOpt r = none) ∧
    mismatchEnv.runQuery "SELECT id, name FROM users" Params.empty =
      .ok [[Value.vint 1]] ∧
    (select pairRT mismatchEnv "SELECT id, name FROM users" none ⟨0⟩).1 ≠
      Outcome.err DbError.mappingFailed ∧
    (select pairRT mismatchEnv "SELECT id, name FROM users" none ⟨0⟩).1 =
      Outcome.panicked fromRowPanicMsg := by
  refine ⟨⟨[Value.vint 1], by simp, rfl⟩, rfl, by decide, rfl⟩

/-- C2 amended: when any returned row's shape fails the caller's conversion,
the whole call short-circuits with the `from_row` panic — no partial result
list and no `Ok` are produced — but the outcome is a panic that aborts the
task, not a returned `Err(DbError::MappingFailed)`. -/
theorem select_mismatch_short_circuits {α : Type} (rt : RowType α)
    (env : DbEnv) (q : String) (pm : Option Params) (st : PoolState)
    (rows : List Row) (hc : env.getConn = .ok ())
    (hq : env.runQuery q (paramsOf pm) = .ok rows)
    (hbad : ∃ r ∈ rows, rt.fromRowOpt r = none) :
    (select rt env q pm st).1 = Outcome.panicked fromRowPanicMsg ∧
    (∀ l : List α, (select rt env q pm st).1 ≠ Outcome.ok l) ∧
    (∀ e : DbError, (select rt env q pm st).1 ≠ Outcome.err e) := by
  rw [select_mapPanic rt env q pm st rows fromRowPanicMsg hc hq
    (execMap_panics_of_bad rt rows hbad)]
  simp

/-- Witness for the amended C2 at the concrete mismatched environment. -/
theorem select_mismatch_short_circuits_wit :
    (select pairRT mismatchEnv "SELECT 1" (some Params.empty) ⟨5⟩).1 =
      Outcome.panicked fromRowPanicMsg ∧
    (∀ l : List (Int × String),
      (select pairRT mismatchEnv "SELECT 1" (some Params.empty) ⟨5⟩).1 ≠
        Outcome.ok l) ∧
    (∀ e : DbError,
      (select pairRT mismatchEnv "SELECT 1" (some Params.empty) ⟨5⟩).1 ≠
        Outcome.err e) :=
  select_mismatch_short_circuits pairRT mismatchEnv "SELECT 1"
    (some Params.empty) ⟨5⟩ [[Value.vint 1]] rfl rfl
    ⟨[Value.vint 1], by simp, rfl⟩

/-- C3: a `select` call returns the empty sequence exactly when a connection
was acquired and the query succeeded with zero matching rows; every error
outcome is therefore distinguishable from empty success. -/
theorem select_empty_iff {α : Type} (rt : RowType α) (env : DbEnv)
    (q : String) (pm : Option Params) (st : PoolState) :
    (select rt env q pm st).1 = Outcome.ok ([] : List α) ↔
      env.getConn = .ok () ∧ env.runQuery q (paramsOf pm) = .ok [] := by
  constructor
  · intro h
    rcases hc : env.getConn with e | u
    · rw [select_connFail rt env q pm st e hc] at h
      simp at h
    · rcases hq : env.runQuery q (paramsOf pm) with e | rows
      · rw [select_queryFail rt env q pm st e hc hq] at h
        simp at h
      · rcases hm : execMap rt rows with m | l
        · rw [select_mapPanic rt env q pm st rows m hc hq hm] at h
          simp at h
        · rw [select_mapOk rt env q pm st rows l hc hq hm] at h
          obtain rfl : l = [] := by simpa using h
          exact ⟨rfl, by rw [execMap_ok_nil rt rows hm]⟩
  · rintro ⟨hc, hq⟩
    rw [select_mapOk rt env q pm st [] [] hc hq rfl]

/-- C4: every successful `select` returns exactly the `FromRow` image of the
driver's result rows, in result order and of equal length. -/
theorem select_maps_rows_in_order {α : Type} (rt : RowType α) (env : DbEnv)
    (q : String) (pm : Option Params) (st : PoolState)
    (rows : List Row) (recs : List α)
    (hq : env.runQuery q (paramsOf pm) = .ok rows)
    (hs : (select rt env q pm st).1 = Outcome.ok recs) :
    recs.length = rows.length ∧
    ∀ i : Nat, recs.get? i = (rows.get? i).bind rt.fromRowOpt := by
  rcases hc : env.getConn with e | u
  · rw [select_connFail rt env q pm st e hc] at hs
    simp at hs
  · rcases hm : execMap rt rows with m | l
    · rw [select_mapPanic rt env q pm st rows m hc hq hm] at hs
      simp at hs
    · rw [select_mapOk rt env q pm st rows l hc hq hm] at hs
      obtain rfl : l = recs := by simpa using hs
      exact execMap_ok_spec rt rows _ hm

/-- Witness for C4 at an aligned one-row result. -/
theorem select_maps_rows_in_order_wit :
    ([((1 : Int), "a")] : List (Int × String)).length =
      ([[Value.vint 1, Value.vstr "a"]] : List Row).length ∧
    ∀ i : Nat, ([((1 : Int), "a")] : List (Int × String)).get? i =
      (([[Value.vint 1, Value.vstr "a"]] : List Row).get? i).bind
        pairRT.fromRowOpt :=
  select_maps_rows_in_order pairRT
    { getConn := .ok (), runQuery := fun _ _ => .ok [[Value.vint 1, Value.vstr "a"]] }
    "SELECT id, name FROM users" none ⟨0⟩
    [[Value.vint 1, Value.vstr "a"]] [((1 : Int), "a")] rfl rfl

/-- C5: after any `select` or `execute` call — connection failure, query
failure, the mapping panic, or success — the pool's lease count is back at
its pre-call value: no execution path, failed ones included, leaves a
connection held. -/
theorem no_lease_leak {α : Type} (rt : RowType α) (env : DbEnv)
    (q : String) (pm : Option Params) (st : PoolState) :
    (select rt env q pm st).2.1 = st ∧ (execute env q pm st).2.1 = st := by
  obtain ⟨n⟩ := st
  constructor
  · rcases hc : env.getConn with m | u
    · rw [select_connFail rt env q pm ⟨n⟩ m hc]
    · rcases hq : env.runQuery q (paramsOf pm) with m | rows
      · rw [select_queryFail rt env q pm ⟨n⟩ m hc hq]
      · rcases hm : execMap rt rows with m | l
        · rw [select_mapPanic rt env q pm ⟨n⟩ rows m hc hq hm]
        · rw [select_mapOk rt env q pm ⟨n⟩ rows l hc hq hm]
  · rcases hc : env.getConn with m | u
    · rw [execute_connFail env q pm ⟨n⟩ m hc]
    · rcases hq : env.runQuery q (paramsOf pm) with m | rows
      · rw [execute_queryFail env q pm ⟨n⟩ m hc hq]
      · rw [execute_queryOk env q pm ⟨n⟩ rows hc hq]

/-- Witness for C5: a rejected query leaves the lease count at its pre-call
value in both operations. -/
theorem no_lease_leak_wit :
    (select pairRT rejectEnv "SELEC" none ⟨2⟩).2.1 = (⟨2⟩ : PoolState) ∧
    (execute rejectEnv "SELEC" none ⟨2⟩).2.1 = (⟨2⟩ : PoolState) :=
  no_lease_leak pairRT rejectEnv "SELEC" none ⟨2⟩

/-- C6: on every path of both operations the mutex on the shared pool handle
obeys the gate discipline: it is held (depth one) at the connection
acquisition event and released (depth zero) by the time the query round
trip runs, so two callers each holding a lease execute queries outside the
lock. -/
theorem lock_not_held_across_query {α : Type} (rt : RowType α) (env : DbEnv)
    (q : String) (pm : Option Params) (st : PoolState) :
    gateOk 0 (select rt env q pm st).2.2 = true ∧
    gateOk 0 (execute env q pm st).2.2 = true := by
  obtain ⟨hsel, hexe⟩ := trace_shapes rt env q pm st
  constructor
  · rcases hsel with h | h <;> rw [h] <;> decide
  · rcases hexe with h | h <;> rw [h] <;> decide

/-- C7: `execute` returns unit whenever the database accepts the statement,
whatever rows the statement produced (they are discarded); its errors are
only the connection/query taxonomy, never a mapping error, and it never
panics. -/
theorem execute_discards_rows (env : DbEnv) (q : String) (pm : Option Params)
    (st : PoolState) :
    (∀ rows, env.getConn = .ok () → env.runQuery q (paramsOf pm) = .ok rows →
      (execute env q pm st).1 = Outcome.ok ()) ∧
    (∀ e, (execute env q pm st).1 = Outcome.err e →
      (∃ m, e = DbError.connectionFailed m) ∨
      (∃ m, e = DbError.queryFailed m)) ∧
    (∀ m, (execute env q pm st).1 ≠ Outcome.panicked m) := by
  refine ⟨fun rows hc hq => ?_, fun e he => ?_, fun m hm => ?_⟩
  · rw [execute_queryOk env q pm st rows hc hq]
  · rcases hc : env.getConn with x | u
    · rw [execute_connFail env q pm st x hc] at he
      exact Or.inl ⟨x, by simpa using he.symm⟩
    · rcases hq : env.runQuery q (paramsOf pm) with x | rows
      · rw [execute_queryFail env q pm st x hc hq] at he
        exact Or.inr ⟨x, by simpa using he.symm⟩
      · rw [execute_queryOk env q pm st rows hc hq] at he
        simp at he
  · rcases hc : env.getConn with x | u
    · rw [execute_connFail env q pm st x hc] at hm
      simp at hm
    · rcases hq : env.runQuery q (paramsOf pm) with x | rows
      · rw [execute_queryFail env q pm st x hc hq] at hm
        simp at hm
      · rw [execute_queryOk env q pm st rows hc hq] at hm
        simp at hm

/-- Witness for C7: an accepted statement with a returned row yields unit. -/
theorem execute_discards_rows_wit :
    (execute acceptEnv "UPDATE users SET x = 1" none ⟨0⟩).1 = Outcome.ok () :=
  (execute_discards_rows acceptEnv "UPDATE users SET x = 1" none ⟨0⟩).1
    [[Value.vint 1]] rfl rfl

end Mysql
